import Mathlib

/-!
Verification of the metric bookkeeping and benchmarking control flow of
`src/imagenet/main.py` (a PyTorch ImageNet training/inference benchmarking
script).  The Python code is shallowly embedded: Python floats are modelled
as rationals (`ℚ`), tensors of scores as `List (List ℚ)` (one row of class
scores per sample), label tensors as `List ℕ`, and the stateful
`AverageMeter` object as a record with explicit state passing.
-/

/-- Embeds `class Summary(Enum)` (main.py lines 597-601). -/
inductive Summary where
  | NONE
  | AVERAGE
  | SUM
  | COUNT
deriving DecidableEq, Repr

/-- Embeds `class AverageMeter` (main.py lines 603-652): the fields set by
`__init__` and `reset`.  `count` is a rational because `all_reduce` writes it
back from a float tensor via `tolist()`. -/
structure AverageMeter where
  name : String
  fmt : String
  summary_type : Summary
  val : ℚ
  avg : ℚ
  sum : ℚ
  count : ℚ
deriving DecidableEq, Repr

/-- Embeds `AverageMeter.reset` (main.py lines 611-615): zeroes
`val`, `avg`, `sum`, `count`. -/
def AverageMeter.reset (m : AverageMeter) : AverageMeter :=
  { m with val := 0, avg := 0, sum := 0, count := 0 }

/-- Embeds `AverageMeter.__init__(name, fmt, summary_type)` (main.py lines
605-609): stores the three descriptor fields and calls `reset`. -/
def AverageMeter.init (name fmt : String) (summary_type : Summary) : AverageMeter :=
  AverageMeter.reset
    { name := name, fmt := fmt, summary_type := summary_type
      val := 0, avg := 0, sum := 0, count := 0 }

/-- Embeds `AverageMeter.update(val, n)` (main.py lines 617-621):
`self.val = val; self.sum += val * n; self.count += n;
self.avg = self.sum / self.count`.  `n` is a Python int (default 1). -/
def AverageMeter.update (m : AverageMeter) (v : ℚ) (n : ℕ := 1) : AverageMeter :=
  let sum := m.sum + v * (n : ℚ)
  let count := m.count + (n : ℚ)
  { m with val := v, sum := sum, count := count, avg := sum / count }

/-- Applies a sequence of `update(val, n)` calls to a meter, in order. -/
def AverageMeter.applyUpdates (m : AverageMeter) (us : List (ℚ × ℕ)) : AverageMeter :=
  us.foldl (fun s u => s.update u.1 u.2) m

/-- Models `dist.all_reduce(total, dist.ReduceOp.SUM)` (main.py line 631) on
the 2-vector `[sum, count]`: the reduced value every process receives is the
elementwise sum of all processes' contributed `(sum, count)` pairs. -/
def allReduceSum (totals : List (ℚ × ℚ)) : ℚ × ℚ :=
  ((totals.map Prod.fst).sum, (totals.map Prod.snd).sum)

/-- Embeds `AverageMeter.all_reduce` (main.py lines 623-633): the meter packs
`[self.sum, self.count]` into a tensor, the collective replaces it by the
elementwise global sum (`reduced`), and the meter unpacks
`self.sum, self.count = total.tolist()` and sets
`self.avg = self.sum / self.count`. -/
def AverageMeter.all_reduce (m : AverageMeter) (reduced : ℚ × ℚ) : AverageMeter :=
  { m with sum := reduced.1, count := reduced.2, avg := reduced.1 / reduced.2 }

/-!  ### Top-k accuracy (main.py lines 676-690)  -/

/-- Index ordering used to model `torch.topk(maxk, dim=1, largest=True,
sorted=True)` on one row of scores: index `i` comes before index `j` when its
score is strictly larger, with ties broken by position (a deterministic
refinement of torch's unspecified tie order).  Out-of-range indices read
score 0 via `getD`; `topkIdx` only ever sorts in-range indices. -/
def idxBefore (row : List ℚ) (i j : ℕ) : Bool :=
  decide (row.getD j 0 < row.getD i 0) ||
    (decide (row.getD i 0 = row.getD j 0) && decide (i ≤ j))

/-- Insertion step of the index sort. -/
def insertIdx (row : List ℚ) (a : ℕ) : List ℕ → List ℕ
  | [] => [a]
  | b :: l => if idxBefore row a b then a :: b :: l else b :: insertIdx row a l

/-- Insertion sort of indices by decreasing score. -/
def sortIdx (row : List ℚ) : List ℕ → List ℕ
  | [] => []
  | a :: l => insertIdx row a (sortIdx row l)

/-- The indices of the `k` highest-scored classes of `row`, best first:
models `row.topk(k)` indices. -/
def topkIdx (row : List ℚ) (k : ℕ) : List ℕ :=
  (sortIdx row (List.range row.length)).take k

/-- Embeds `accuracy(output, target, topk)` (main.py lines 676-690):
`maxk = max(topk)`; `pred` holds each sample's `maxk` best class indices
(`output.topk(maxk, 1, True, True)`); `correct` compares them with the
target; for each `k` in `topk`, `correct_k` sums the matches among the first
`k` predictions (`correct[:k].reshape(-1).sum()`, a per-sample count summed
over the batch) and the result is `correct_k.mul_(100.0 / batch_size)`. -/
def accuracy (output : List (List ℚ)) (target : List ℕ) (topk : List ℕ) : List ℚ :=
  let maxk := topk.foldl max 0
  let batch_size := target.length
  let pred := output.map (fun row => topkIdx row maxk)
  topk.map (fun k =>
    let correct_k : ℕ :=
      (pred.zip target).foldl (fun acc pt => acc + (pt.1.take k).count pt.2) 0
    (correct_k : ℚ) * (100 / (batch_size : ℚ)))

/-- Written from the spec's words ("fraction of samples where the true label
is among the k highest-scored predictions"), to be compared with `accuracy`:
the number of samples whose label is among that sample's `k` best class
indices, divided by the batch size. -/
def specTopkFraction (output : List (List ℚ)) (target : List ℕ) (k : ℕ) : ℚ :=
  (((output.zip target).countP fun rt => decide (rt.2 ∈ topkIdx rt.1 k) : ℕ) : ℚ) /
    (target.length : ℚ)

/-!  ### Bounded benchmark loops (main.py `train` lines 463-508 and
`validate.run_validate` lines 530-566)  -/

/-- Embeds the shared iteration skeleton
`for i, (images, target) in enumerate(loader): if i == args.num_iter: break; <body>`
(main.py lines 464-466 in `train` and 533-535 in `run_validate`): starting
from enumeration index `i`, returns the list of batches the body actually
runs on. -/
def loopEnum (numIter : ℕ) {α : Type} : ℕ → List α → List α
  | _, [] => []
  | i, b :: rest => if i = numIter then [] else b :: loopEnum numIter (i + 1) rest

/-- The batches processed by one call of the train loop or of
`run_validate`: the enumeration starts at index 0.  Each processed batch
corresponds to exactly one model invocation. -/
def processedBatches {α : Type} (batches : List α) (numIter : ℕ) : List α :=
  loopEnum numIter 0 batches

/-- Embeds the timing bookkeeping of the same two loops (main.py lines
464-500 in `train`, 533-560 in `run_validate`): each iteration `i` measures
a wall-clock `duration` and then runs
`if i >= args.num_warmup: batch_time.update(duration)`; the loop breaks when
`i == args.num_iter`.  `durations` lists the measured duration of each batch
of the loader, in order. -/
def loopMeter (numIter numWarmup : ℕ) : ℕ → List ℚ → AverageMeter → AverageMeter
  | _, [], m => m
  | i, d :: rest, m =>
    if i = numIter then m
    else loopMeter numIter numWarmup (i + 1) rest
      (if numWarmup ≤ i then m.update d 1 else m)

/-- The `batch_time` meter after one call of the train loop
(`batch_time = AverageMeter('Time', ':6.3f')`, line 450) or of
`run_validate` (`batch_time = AverageMeter('Time', ':6.3f', Summary.NONE)`,
line 568), with the loop started at enumeration index 0. -/
def batchTimeAfter (durations : List ℚ) (numIter numWarmup : ℕ)
    (init : AverageMeter) : AverageMeter :=
  loopMeter numIter numWarmup 0 durations init

/-- Embeds the latency report (main.py line 505 `train`, line 563
`run_validate`): `latency = batch_time.avg / batch_size * 1000`. -/
def reportedLatency (avg batch_size : ℚ) : ℚ :=
  avg / batch_size * 1000

/-- Embeds the throughput report (main.py line 506 `train`, line 564
`run_validate`): `perf = batch_size / batch_time.avg`. -/
def reportedPerf (avg batch_size : ℚ) : ℚ :=
  batch_size / avg

/-!  ### JIT trace fallback (main.py lines 516-525)  -/

/-- Outcome of the external call `torch.jit.trace(model, sample_input,
check_trace=False)`: either a traced model, or one of the two exception
types named in the `except (RuntimeError, TypeError)` clause. -/
inductive TraceOutcome (Model : Type) where
  | ok (traced : Model)
  | runtimeError
  | typeError
deriving DecidableEq, Repr

/-- Embeds the `args.jit` block of `validate` (main.py lines 516-525): when
`args.jit` is set, `try: modelJit = torch.jit.trace(...); model = modelJit`
replaces the model by the traced one on success, and the
`except (RuntimeError, TypeError)` handler prints and falls through, leaving
`model` bound to the original; without `args.jit` the model is untouched.
Returns the model `run_validate` subsequently uses. -/
def jitTraceSelect {Model : Type} (jit : Bool) (model : Model)
    (traceResult : TraceOutcome Model) : Model :=
  if jit then
    match traceResult with
    | TraceOutcome.ok traced => traced
    | TraceOutcome.runtimeError => model
    | TraceOutcome.typeError => model
  else model

/-!  ### EfficientNet image sizes (main.py lines 31-43 and 692-697)  -/

/-- Embeds `params_dict` (main.py lines 31-43): for each efficientnet
variant the tuple `(width, depth, res, dropout)`. -/
def params_dict : List (String × ℚ × ℚ × ℕ × ℚ) :=
  [("efficientnet_b0", 1.0, 1.0, 224, 0.2),
   ("efficientnet_b1", 1.0, 1.1, 240, 0.2),
   ("efficientnet_b2", 1.1, 1.2, 260, 0.3),
   ("efficientnet_b3", 1.2, 1.4, 300, 0.3),
   ("efficientnet_b4", 1.4, 1.8, 380, 0.4),
   ("efficientnet_b5", 1.6, 2.2, 456, 0.4),
   ("efficientnet_b6", 1.8, 2.6, 528, 0.5),
   ("efficientnet_b7", 2.0, 3.1, 600, 0.5),
   ("efficientnet_b8", 2.2, 3.6, 672, 0.5),
   ("efficientnet_l2", 4.3, 5.3, 800, 0.5)]

/-- Embeds `get_image_size(model_name)` (main.py lines 692-697): when
`model_name in params_dict`, destructure `_, _, res, _ =
params_dict[model_name]` and return `res`; otherwise `assert False` raises
`AssertionError`, modelled as `none`. -/
def get_image_size (model_name : String) : Option ℕ :=
  match params_dict.find? (fun p => decide (p.1 = model_name)) with
  | some p => some p.2.2.2.1
  | none => none

/-!  ## Helper lemmas  -/

lemma applyUpdates_sum_count (us : List (ℚ × ℕ)) :
    ∀ s : AverageMeter,
      (s.applyUpdates us).sum = s.sum + (us.map fun u => u.1 * (u.2 : ℚ)).sum ∧
      (s.applyUpdates us).count = s.count + (us.map fun u => ((u.2 : ℕ) : ℚ)).sum := by
  induction us with
  | nil => intro s; simp [AverageMeter.applyUpdates]
  | cons u rest ih =>
    intro s
    obtain ⟨h1, h2⟩ := ih (s.update u.1 u.2)
    simp only [AverageMeter.applyUpdates] at h1 h2 ⊢
    constructor
    · rw [List.foldl_cons, h1]
      simp only [AverageMeter.update, List.map_cons, List.sum_cons]
      ring
    · rw [List.foldl_cons, h2]
      simp only [AverageMeter.update, List.map_cons, List.sum_cons]
      ring

lemma applyUpdates_avg (us : List (ℚ × ℕ)) (hne : us ≠ []) :
    ∀ s : AverageMeter,
      (s.applyUpdates us).avg = (s.applyUpdates us).sum / (s.applyUpdates us).count := by
  induction us with
  | nil => exact absurd rfl hne
  | cons u rest ih =>
    intro s
    cases rest with
    | nil => simp [AverageMeter.applyUpdates, AverageMeter.update]
    | cons v rest2 =>
      have h := ih (by simp) (s.update u.1 u.2)
      simpa [AverageMeter.applyUpdates] using h

/-!  ## Claim theorems  -/

/-- C2: after `reset`, all four meter fields are 0, and after any sequence
of `update(val_i, n_i)` calls with `n_i >= 1`, the meter satisfies
`sum = Σ val_i * n_i`, `count = Σ n_i`, and `avg = sum / count` whenever
`count > 0`; universality over the update sequence makes the invariant hold
after every update. -/
theorem averageMeter_running_invariant (m : AverageMeter) (us : List (ℚ × ℕ))
    (h : ∀ u ∈ us, 1 ≤ u.2) :
    ((m.reset).applyUpdates us).sum = (us.map fun u => u.1 * (u.2 : ℚ)).sum ∧
    ((m.reset).applyUpdates us).count = (us.map fun u => ((u.2 : ℕ) : ℚ)).sum ∧
    (0 < ((m.reset).applyUpdates us).count →
      ((m.reset).applyUpdates us).avg =
        ((m.reset).applyUpdates us).sum / ((m.reset).applyUpdates us).count) ∧
    (m.reset).val = 0 ∧ (m.reset).avg = 0 ∧ (m.reset).sum = 0 ∧ (m.reset).count = 0 := by
  obtain ⟨h1, h2⟩ := applyUpdates_sum_count us m.reset
  refine ⟨by simpa [AverageMeter.reset] using h1, by simpa [AverageMeter.reset] using h2,
    ?_, rfl, rfl, rfl, rfl⟩
  intro hpos
  rcases us with _ | ⟨u, rest⟩
  · simp [AverageMeter.applyUpdates, AverageMeter.reset] at hpos
  · exact applyUpdates_avg (u :: rest) (by simp) m.reset

/-- Witness for C2 at the meter `AverageMeter.init "t" ":f" Summary.AVERAGE`
and the update sequence `[(3, 2), (5, 1)]`. -/
theorem averageMeter_running_invariant_witness :
    (∀ u ∈ [((3 : ℚ), 2), ((5 : ℚ), 1)], 1 ≤ u.2) ∧
    ((((AverageMeter.init "t" ":f" Summary.AVERAGE).reset).applyUpdates
        [((3 : ℚ), 2), ((5 : ℚ), 1)]).sum =
      (([((3 : ℚ), 2), ((5 : ℚ), 1)]).map fun u => u.1 * (u.2 : ℚ)).sum ∧
    (((AverageMeter.init "t" ":f" Summary.AVERAGE).reset).applyUpdates
        [((3 : ℚ), 2), ((5 : ℚ), 1)]).count =
      (([((3 : ℚ), 2), ((5 : ℚ), 1)]).map fun u => ((u.2 : ℕ) : ℚ)).sum ∧
    (0 < (((AverageMeter.init "t" ":f" Summary.AVERAGE).reset).applyUpdates
        [((3 : ℚ), 2), ((5 : ℚ), 1)]).count →
      (((AverageMeter.init "t" ":f" Summary.AVERAGE).reset).applyUpdates
          [((3 : ℚ), 2), ((5 : ℚ), 1)]).avg =
        (((AverageMeter.init "t" ":f" Summary.AVERAGE).reset).applyUpdates
            [((3 : ℚ), 2), ((5 : ℚ), 1)]).sum /
          (((AverageMeter.init "t" ":f" Summary.AVERAGE).reset).applyUpdates
              [((3 : ℚ), 2), ((5 : ℚ), 1)]).count) ∧
    ((AverageMeter.init "t" ":f" Summary.AVERAGE).reset).val = 0 ∧
    ((AverageMeter.init "t" ":f" Summary.AVERAGE).reset).avg = 0 ∧
    ((AverageMeter.init "t" ":f" Summary.AVERAGE).reset).sum = 0 ∧
    ((AverageMeter.init "t" ":f" Summary.AVERAGE).reset).count = 0) :=
  ⟨by decide,
   averageMeter_running_invariant (AverageMeter.init "t" ":f" Summary.AVERAGE)
     [((3 : ℚ), 2), ((5 : ℚ), 1)] (by decide)⟩

/-- C3: with `dist.all_reduce(ReduceOp.SUM)` modelled as elementwise
summation over all processes (`allReduceSum`), every participating meter
ends with `sum` the total of all processes' sums, `count` the total of all
processes' counts, and `avg` the global sum divided by the global count. -/
theorem averageMeter_all_reduce_global (meters : List AverageMeter) (m : AverageMeter)
    (hm : m ∈ meters) :
    (m.all_reduce (allReduceSum (meters.map fun x => (x.sum, x.count)))).sum =
      (meters.map AverageMeter.sum).sum ∧
    (m.all_reduce (allReduceSum (meters.map fun x => (x.sum, x.count)))).count =
      (meters.map AverageMeter.count).sum ∧
    (m.all_reduce (allReduceSum (meters.map fun x => (x.sum, x.count)))).avg =
      (meters.map AverageMeter.sum).sum / (meters.map AverageMeter.count).sum := by
  simp only [AverageMeter.all_reduce, allReduceSum, List.map_map]
  exact ⟨rfl, rfl, rfl⟩

/-- Witness for C3 with two concrete processes. -/
theorem averageMeter_all_reduce_global_witness :
    (⟨"a", ":f", Summary.NONE, 0, 3, 6, 2⟩ : AverageMeter) ∈
      [(⟨"a", ":f", Summary.NONE, 0, 3, 6, 2⟩ : AverageMeter),
       (⟨"a", ":f", Summary.NONE, 0, 5, 10, 2⟩ : AverageMeter)] ∧
    ((⟨"a", ":f", Summary.NONE, 0, 3, 6, 2⟩ : AverageMeter).all_reduce
        (allReduceSum (([(⟨"a", ":f", Summary.NONE, 0, 3, 6, 2⟩ : AverageMeter),
          (⟨"a", ":f", Summary.NONE, 0, 5, 10, 2⟩ : AverageMeter)]).map
            fun x => (x.sum, x.count)))).sum =
      (([(⟨"a", ":f", Summary.NONE, 0, 3, 6, 2⟩ : AverageMeter),
        (⟨"a", ":f", Summary.NONE, 0, 5, 10, 2⟩ : AverageMeter)]).map
          AverageMeter.sum).sum ∧
    ((⟨"a", ":f", Summary.NONE, 0, 3, 6, 2⟩ : AverageMeter).all_reduce
        (allReduceSum (([(⟨"a", ":f", Summary.NONE, 0, 3, 6, 2⟩ : AverageMeter),
          (⟨"a", ":f", Summary.NONE, 0, 5, 10, 2⟩ : AverageMeter)]).map
            fun x => (x.sum, x.count)))).count =
      (([(⟨"a", ":f", Summary.NONE, 0, 3, 6, 2⟩ : AverageMeter),
        (⟨"a", ":f", Summary.NONE, 0, 5, 10, 2⟩ : AverageMeter)]).map
          AverageMeter.count).sum ∧
    ((⟨"a", ":f", Summary.NONE, 0, 3, 6, 2⟩ : AverageMeter).all_reduce
        (allReduceSum (([(⟨"a", ":f", Summary.NONE, 0, 3, 6, 2⟩ : AverageMeter),
          (⟨"a", ":f", Summary.NONE, 0, 5, 10, 2⟩ : AverageMeter)]).map
            fun x => (x.sum, x.count)))).avg =
      (([(⟨"a", ":f", Summary.NONE, 0, 3, 6, 2⟩ : AverageMeter),
        (⟨"a", ":f", Summary.NONE, 0, 5, 10, 2⟩ : AverageMeter)]).map
          AverageMeter.sum).sum /
        (([(⟨"a", ":f", Summary.NONE, 0, 3, 6, 2⟩ : AverageMeter),
          (⟨"a", ":f", Summary.NONE, 0, 5, 10, 2⟩ : AverageMeter)]).map
            AverageMeter.count).sum :=
  ⟨by decide,
   averageMeter_all_reduce_global
     [(⟨"a", ":f", Summary.NONE, 0, 3, 6, 2⟩ : AverageMeter),
      (⟨"a", ":f", Summary.NONE, 0, 5, 10, 2⟩ : AverageMeter)]
     (⟨"a", ":f", Summary.NONE, 0, 3, 6, 2⟩ : AverageMeter) (by decide)⟩

/-- C6: the reported latency is `batch_time.avg / batch_size * 1000`, the
reported throughput is `batch_size / batch_time.avg`, and with a positive
average batch time (and the necessarily positive loader batch size) their
product is exactly 1000. -/
theorem reported_latency_perf (avg batch_size : ℚ) (havg : 0 < avg)
    (hbs : 0 < batch_size) :
    reportedLatency avg batch_size = avg / batch_size * 1000 ∧
    reportedPerf avg batch_size = batch_size / avg ∧
    reportedLatency avg batch_size * reportedPerf avg batch_size = 1000 := by
  refine ⟨rfl, rfl, ?_⟩
  have ha : avg ≠ 0 := ne_of_gt havg
  have hb : batch_size ≠ 0 := ne_of_gt hbs
  unfold reportedLatency reportedPerf
  field_simp

/-- Witness for C6 at `avg = 2`, `batch_size = 256`. -/
theorem reported_latency_perf_witness :
    (0 : ℚ) < 2 ∧ (0 : ℚ) < 256 ∧
    (reportedLatency 2 256 = 2 / 256 * 1000 ∧
     reportedPerf 2 256 = 256 / 2 ∧
     reportedLatency 2 256 * reportedPerf 2 256 = 1000) :=
  ⟨by norm_num, by norm_num, reported_latency_perf 2 256 (by norm_num) (by norm_num)⟩

/-- C7: with `args.jit` set, a `RuntimeError` or `TypeError` from
`torch.jit.trace` leaves validation running on the original, untouched
model, while a successful trace replaces the model by the traced one. -/
theorem jitTraceSelect_fallback (Model : Type) (model traced : Model) :
    jitTraceSelect true model TraceOutcome.runtimeError = model ∧
    jitTraceSelect true model TraceOutcome.typeError = model ∧
    jitTraceSelect true model (TraceOutcome.ok traced) = traced :=
  ⟨rfl, rfl, rfl⟩

lemma loopEnum_eq_take {α : Type} (numIter : ℕ) :
    ∀ (l : List α) (i : ℕ), i ≤ numIter → loopEnum numIter i l = l.take (numIter - i) := by
  intro l
  induction l with
  | nil => intro i _; simp [loopEnum]
  | cons b rest ih =>
    intro i hi
    by_cases h : i = numIter
    · subst h; simp [loopEnum]
    · have hi' : i + 1 ≤ numIter := Nat.lt_of_le_of_ne hi h
      have hsub : numIter - i = (numIter - (i + 1)) + 1 := by omega
      rw [loopEnum, if_neg h, ih (i + 1) hi', hsub, List.take_succ_cons]

/-- C4: both the train loop and `run_validate` process exactly the first
`min num_iter (number of batches)` batches of their loader: the `break` at
`i == args.num_iter` truncates the enumeration to a prefix, so the number of
model invocations is bounded by `min num_iter (number of batches)`. -/
theorem loop_processes_min_batches (α : Type) (batches : List α) (numIter : ℕ) :
    processedBatches batches numIter = batches.take numIter ∧
    (processedBatches batches numIter).length = min numIter batches.length := by
  have h := loopEnum_eq_take numIter batches 0 (Nat.zero_le _)
  constructor
  · simpa [processedBatches] using h
  · simp only [processedBatches, h, Nat.sub_zero, List.length_take]

lemma loopMeter_eq_foldl (numIter numWarmup : ℕ) :
    ∀ (l : List ℚ) (i : ℕ) (m : AverageMeter), i ≤ numIter →
      loopMeter numIter numWarmup i l m =
        (((l.take (numIter - i)).enumFrom i).filter
            (fun p => decide (numWarmup ≤ p.1))).foldl (fun s p => s.update p.2 1) m := by
  intro l
  induction l with
  | nil => intro i m _; simp [loopMeter]
  | cons d rest ih =>
    intro i m hi
    by_cases h : i = numIter
    · subst h; simp [loopMeter]
    · have hi' : i + 1 ≤ numIter := Nat.lt_of_le_of_ne hi h
      have hsub : numIter - i = (numIter - (i + 1)) + 1 := by omega
      rw [loopMeter, if_neg h, hsub, List.take_succ_cons, List.enumFrom]
      by_cases hw : numWarmup ≤ i
      · rw [if_pos hw, List.filter_cons_of_pos (by simpa using hw), List.foldl_cons]
        exact ih (i + 1) (m.update d 1) hi'
      · rw [if_neg hw, List.filter_cons_of_neg (by simpa using hw)]
        exact ih (i + 1) m hi'

/-- C5: in both loops, the `batch_time` meter ends up having been updated
with exactly the durations of the processed iterations whose index `i`
satisfies `i >= num_warmup` (in loop order); warmup iterations never
contribute. -/
theorem warmup_durations_filter (durations : List ℚ) (numIter numWarmup : ℕ)
    (init : AverageMeter) :
    batchTimeAfter durations numIter numWarmup init =
      (((durations.take numIter).enumFrom 0).filter
          (fun p => decide (numWarmup ≤ p.1))).foldl (fun s p => s.update p.2 1) init := by
  have h := loopMeter_eq_foldl numIter numWarmup durations 0 init (Nat.zero_le _)
  simpa [batchTimeAfter] using h

/-- C9: when no processed iteration index reaches `num_warmup` (that is,
`min num_iter (number of batches) <= num_warmup`, e.g. `num_iter <=
num_warmup` or a short loader), the `batch_time` meter stays in its reset
state, so `batch_time.avg = 0` and the subsequent
`perf = batch_size / batch_time.avg` report divides by zero: the reported
throughput is well-defined only when the loop ran past index
`num_warmup`. -/
theorem batch_time_avg_zero_without_measured_iteration (durations : List ℚ)
    (numIter numWarmup : ℕ) (name fmt : String) (st : Summary)
    (h : min numIter durations.length ≤ numWarmup) :
    (batchTimeAfter durations numIter numWarmup (AverageMeter.init name fmt st)).avg = 0 ∧
    (batchTimeAfter durations numIter numWarmup (AverageMeter.init name fmt st)).count = 0 := by
  have hfilter : ((durations.take numIter).enumFrom 0).filter
      (fun p => decide (numWarmup ≤ p.1)) = [] := by
    rw [List.filter_eq_nil_iff]
    intro p hp
    rcases p with ⟨j, d⟩
    obtain ⟨-, hlt, -⟩ := List.mem_enumFrom hp
    simp only [Nat.zero_add, List.length_take] at hlt
    simp only [decide_eq_true_eq]
    omega
  rw [warmup_durations_filter, hfilter]
  exact ⟨rfl, rfl⟩

/-- Witness for C9: `num_iter = 5` but only warmup indices (`num_warmup = 3`,
a single batch) are processed, so the meter's average stays 0. -/
theorem batch_time_avg_zero_witness :
    min 5 ([(1 : ℚ)]).length ≤ 3 ∧
    ((batchTimeAfter [(1 : ℚ)] 5 3 (AverageMeter.init "Time" ":6.3f" Summary.NONE)).avg = 0 ∧
     (batchTimeAfter [(1 : ℚ)] 5 3 (AverageMeter.init "Time" ":6.3f" Summary.NONE)).count = 0) :=
  ⟨by decide,
   batch_time_avg_zero_without_measured_iteration [(1 : ℚ)] 5 3 "Time" ":6.3f"
     Summary.NONE (by decide)⟩

lemma insertIdx_perm (row : List ℚ) (a : ℕ) :
    ∀ l : List ℕ, (insertIdx row a l).Perm (a :: l) := by
  intro l
  induction l with
  | nil => simp [insertIdx]
  | cons b rest ih =>
    by_cases h : idxBefore row a b
    · simp [insertIdx, h]
    · rw [insertIdx, if_neg h]
      exact (ih.cons b).trans (List.Perm.swap a b rest)

lemma sortIdx_perm (row : List ℚ) : ∀ l : List ℕ, (sortIdx row l).Perm l := by
  intro l
  induction l with
  | nil => simp [sortIdx]
  | cons a rest ih =>
    rw [sortIdx]
    exact (insertIdx_perm row a (sortIdx row rest)).trans (ih.cons a)

lemma sortIdx_range_nodup (row : List ℚ) : (sortIdx row (List.range row.length)).Nodup :=
  ((sortIdx_perm row (List.range row.length)).nodup_iff).mpr (List.nodup_range _)

lemma topkIdx_nodup (row : List ℚ) (k : ℕ) : (topkIdx row k).Nodup :=
  (List.take_sublist k _).nodup (sortIdx_range_nodup row)

lemma topkIdx_take (row : List ℚ) {k maxk : ℕ} (h : k ≤ maxk) :
    (topkIdx row maxk).take k = topkIdx row k := by
  unfold topkIdx
  rw [List.take_take, min_eq_left h]

lemma count_topkIdx_take (row : List ℚ) (t : ℕ) {k maxk : ℕ} (h : k ≤ maxk) :
    ((topkIdx row maxk).take k).count t = if t ∈ topkIdx row k then 1 else 0 := by
  rw [topkIdx_take row h]
  by_cases hmem : t ∈ topkIdx row k
  · rw [if_pos hmem, List.count_eq_one_of_mem (topkIdx_nodup row k) hmem]
  · rw [if_neg hmem, List.count_eq_zero_of_not_mem hmem]

lemma foldl_add_map {β : Type} (f : β → ℕ) :
    ∀ (l : List β) (a : ℕ), l.foldl (fun acc x => acc + f x) a = a + (l.map f).sum := by
  intro l
  induction l with
  | nil => intro a; simp
  | cons x rest ih =>
    intro a
    rw [List.foldl_cons, ih (a + f x), List.map_cons, List.sum_cons]
    ring

lemma sum_map_indicator_countP {β : Type} (p : β → Bool) :
    ∀ l : List β, (l.map fun x => if p x then (1 : ℕ) else 0).sum = l.countP p := by
  intro l
  induction l with
  | nil => simp
  | cons x rest ih =>
    rw [List.map_cons, List.sum_cons, ih, List.countP_cons]
    ring

lemma le_foldl_max_init : ∀ (l : List ℕ) (a : ℕ), a ≤ l.foldl max a := by
  intro l
  induction l with
  | nil => intro a; exact le_refl a
  | cons x t ih => intro a; exact le_trans (le_max_left a x) (ih (max a x))

lemma mem_le_foldl_max : ∀ (l : List ℕ) (a k : ℕ), k ∈ l → k ≤ l.foldl max a := by
  intro l
  induction l with
  | nil => intro a k hk; cases hk
  | cons x rest ih =>
    intro a k hk
    rcases List.mem_cons.mp hk with h | h
    · subst h
      exact le_trans (le_max_right a k) (le_foldl_max_init rest (max a k))
    · exact ih (max a x) k h

/-- Refinement equality behind C1: for every `k` in `topk`, `accuracy`
returns `100` times the fraction of samples whose true label is among the
`k` highest-scored predictions of that sample. -/
lemma accuracy_eq_percent (output : List (List ℚ)) (target : List ℕ) (topk : List ℕ) :
    accuracy output target topk =
      topk.map fun k => 100 * specTopkFraction output target k := by
  unfold accuracy
  apply List.map_congr_left
  intro k hk
  have hkmax : k ≤ topk.foldl max 0 := mem_le_foldl_max topk 0 k hk
  rw [foldl_add_map, List.zip_map_left, List.map_map, Nat.zero_add]
  have hpt : ((fun pt : List ℕ × ℕ => (pt.1.take k).count pt.2) ∘
      Prod.map (fun row => topkIdx row (topk.foldl max 0)) id) =
      fun rt : List ℚ × ℕ =>
        if (fun rt : List ℚ × ℕ => decide (rt.2 ∈ topkIdx rt.1 k)) rt then 1 else 0 := by
    funext rt
    simp only [Function.comp_apply, Prod.map_apply, id_eq, decide_eq_true_eq]
    exact count_topkIdx_take rt.1 rt.2 hkmax
  rw [hpt, sum_map_indicator_countP, specTopkFraction]
  ring

/-- C1 counterexample: at `output = [[1, 0]]`, `target = [0]`, `topk = [1]`
the fraction of samples whose true label is among the 1 highest-scored
predictions is `1`, but `accuracy` returns `[100]`, not `[1]`: it scales the
fraction by 100. -/
theorem accuracy_returns_percent_counterexample :
    accuracy [[(1 : ℚ), 0]] [0] [1] = [100] ∧
    specTopkFraction [[(1 : ℚ), 0]] [0] 1 = 1 ∧ (100 : ℚ) ≠ 1 := by
  refine ⟨?_, ?_, by norm_num⟩
  · norm_num [accuracy, topkIdx, sortIdx, insertIdx, idxBefore, List.range, List.range.loop]
  · norm_num [specTopkFraction, topkIdx, sortIdx, insertIdx, idxBefore, List.range,
      List.range.loop, List.countP, List.countP.go]

/-- C1 (amended): for every `k` in `topk`, `accuracy(output, target, topk)`
returns at the position of `k` the fraction of samples whose true label is
among the `k` highest-scored predictions for that sample, multiplied by 100
(a percentage rather than the bare fraction). -/
theorem accuracy_is_percent_of_topk_fraction (output : List (List ℚ))
    (target : List ℕ) (topk : List ℕ) :
    accuracy output target topk =
      topk.map fun k => 100 * specTopkFraction output target k :=
  accuracy_eq_percent output target topk

lemma countP_le_countP {β : Type} (p q : β → Bool) (h : ∀ x, p x = true → q x = true) :
    ∀ l : List β, l.countP p ≤ l.countP q := by
  intro l
  induction l with
  | nil => simp
  | cons x rest ih =>
    rw [List.countP_cons, List.countP_cons]
    by_cases hx : p x = true
    · rw [if_pos hx, if_pos (h x hx)]
      omega
    · rw [if_neg hx]
      split <;> omega

lemma topkIdx_mono_mem (row : List ℚ) {k k' : ℕ} (h : k ≤ k') {t : ℕ}
    (ht : t ∈ topkIdx row k) : t ∈ topkIdx row k' := by
  rw [← topkIdx_take row h] at ht
  exact List.mem_of_mem_take ht

lemma specTopkFraction_mono (output : List (List ℚ)) (target : List ℕ) {k k' : ℕ}
    (h : k ≤ k') : specTopkFraction output target k ≤ specTopkFraction output target k' := by
  unfold specTopkFraction
  have hc : ((output.zip target).countP fun rt => decide (rt.2 ∈ topkIdx rt.1 k)) ≤
      ((output.zip target).countP fun rt => decide (rt.2 ∈ topkIdx rt.1 k')) := by
    apply countP_le_countP
    intro rt hrt
    simp only [decide_eq_true_eq] at hrt ⊢
    exact topkIdx_mono_mem rt.1 h hrt
  rcases Nat.eq_zero_or_pos target.length with h0 | hpos
  · simp [h0]
  · have hlen : (0 : ℚ) < (target.length : ℚ) := by exact_mod_cast hpos
    exact (div_le_div_iff_of_pos_right hlen).mpr (by exact_mod_cast hc)

/-- C8: the value `accuracy` computes is monotone in `k`: for `k <= k'` the
entry returned for `k` is at most the entry returned for `k'` (so in
particular Acc@1 <= Acc@5 on every batch). -/
theorem accuracy_mono_topk (output : List (List ℚ)) (target : List ℕ)
    (k k' : ℕ) (a b : ℚ) (hkk : k ≤ k')
    (heq : accuracy output target [k, k'] = [a, b]) : a ≤ b := by
  rw [accuracy_eq_percent] at heq
  simp only [List.map_cons, List.map_nil, List.cons.injEq, and_true] at heq
  obtain ⟨ha, hb⟩ := heq
  rw [← ha, ← hb]
  exact mul_le_mul_of_nonneg_left (specTopkFraction_mono output target hkk) (by norm_num)

/-- Witness for C8: on a concrete 2-sample batch, Acc@1 = 50 <= Acc@2 = 100. -/
theorem accuracy_mono_topk_witness :
    1 ≤ 2 ∧
    accuracy [[(1 : ℚ), 2], [(3 : ℚ), 0]] [1, 1] [1, 2] = [50, 100] ∧
    (50 : ℚ) ≤ 100 :=
  ⟨by decide,
   by norm_num [accuracy, topkIdx, sortIdx, insertIdx, idxBefore, List.range,
     List.range.loop, List.count, List.countP, List.countP.go,
     show ((0 == 1) = false) from rfl, cond_false, cond_true],
   accuracy_mono_topk [[(1 : ℚ), 2], [(3 : ℚ), 0]] [1, 1] 1 2 50 100 (by decide)
     (by norm_num [accuracy, topkIdx, sortIdx, insertIdx, idxBefore, List.range,
       List.range.loop, List.count, List.countP, List.countP.go,
       show ((0 == 1) = false) from rfl, cond_false, cond_true])⟩

/-- C10: `get_image_size` returns the resolution component (third tuple
element) of the `params_dict` entry for every key of `params_dict`, and hits
`assert False` (modelled as `none`) for every other model name. -/
theorem get_image_size_params (model_name : String) :
    (∀ w d r dr, (model_name, w, d, r, dr) ∈ params_dict →
      get_image_size model_name = some r) ∧
    (model_name ∉ params_dict.map Prod.fst → get_image_size model_name = none) := by
  constructor
  · intro w d r dr hmem
    simp only [params_dict, List.mem_cons, List.not_mem_nil, or_false,
      Prod.mk.injEq] at hmem
    rcases hmem with ⟨h1, -, -, h3, -⟩ | ⟨h1, -, -, h3, -⟩ | ⟨h1, -, -, h3, -⟩ |
      ⟨h1, -, -, h3, -⟩ | ⟨h1, -, -, h3, -⟩ | ⟨h1, -, -, h3, -⟩ | ⟨h1, -, -, h3, -⟩ |
      ⟨h1, -, -, h3, -⟩ | ⟨h1, -, -, h3, -⟩ | ⟨h1, -, -, h3, -⟩ <;>
      subst h1 <;> subst h3 <;> rfl
  · intro hnot
    have hfind : params_dict.find? (fun p => decide (p.1 = model_name)) = none := by
      rw [List.find?_eq_none]
      intro x hx
      simp only [decide_eq_true_eq]
      intro hEq
      exact hnot (hEq ▸ List.mem_map_of_mem Prod.fst hx)
    simp [get_image_size, hfind]

/-- Witness for C10: the key `"efficientnet_b0"` maps to resolution 224, and
the non-key `"resnet18"` is rejected. -/
theorem get_image_size_params_witness :
    ("efficientnet_b0", (1.0 : ℚ), (1.0 : ℚ), (224 : ℕ), (0.2 : ℚ)) ∈ params_dict ∧
    "resnet18" ∉ params_dict.map Prod.fst ∧
    get_image_size "efficientnet_b0" = some 224 ∧
    get_image_size "resnet18" = none :=
  ⟨List.mem_cons_self _ _, by decide,
   (get_image_size_params "efficientnet_b0").1 1.0 1.0 224 0.2 (List.mem_cons_self _ _),
   (get_image_size_params "resnet18").2 (by decide)⟩
